import Mathlib

/-!
Verification development for the `iaf_cond_beta` neuron model
(`src/models/iaf_cond_beta.h`): a conductance-based leaky integrate-and-fire
neuron whose synaptic conductances follow a normalized beta-function kernel.

The header file in the repository declares the data model (`Parameters_`,
`State_`, `Variables_`, `Buffers_`) and defines inline the status-dictionary
transaction (`set_status`/`get_status`), the connection tests
(`handles_test_event`) and the recordable accessors (`get_r_`,
`get_y_elem_`).  The out-of-line member functions (the ODE right-hand side,
`get_normalisation_factor`, `update`, `handle`, `Parameters_::set`,
`State_::set`) are not part of the repository snapshot; those are modelled
from the specification, as marked in each doc comment.
-/

namespace IafCondBeta

/-! ### Continuous beta-kernel impulse response (§4.3 of the spec)

The synaptic conductance pair obeys `dg' = -dg/tau_rise`,
`g' = dg - g/tau_decay`.  With the unit impulse condition `dg 0 = 1`,
`g 0 = 0` the closed-form solution is `unit_dg`/`unit_g` below. -/

/-- Analytic time of peak conductance:
`t_peak = (tau_decay*tau_rise/(tau_decay - tau_rise)) * ln(tau_decay/tau_rise)`. -/
noncomputable def t_peak (tau_rise tau_decay : ℝ) : ℝ :=
  tau_decay * tau_rise / (tau_decay - tau_rise) * Real.log (tau_decay / tau_rise)

/-- Rise variable of the unit impulse response: `dg(t) = exp(-t/tau_rise)`. -/
noncomputable def unit_dg (tau_rise t : ℝ) : ℝ :=
  Real.exp (-t / tau_rise)

/-- Conductance of the unit impulse response (`dg(0)=1`, `g(0)=0`):
`g(t) = tau_rise*tau_decay/(tau_decay-tau_rise) * (exp(-t/tau_decay) - exp(-t/tau_rise))`. -/
noncomputable def unit_g (tau_rise tau_decay t : ℝ) : ℝ :=
  tau_rise * tau_decay / (tau_decay - tau_rise) *
    (Real.exp (-t / tau_decay) - Real.exp (-t / tau_rise))

/-- Modelled from the spec: `iaf_cond_beta::get_normalisation_factor` (declared
in the header, defined out of line).  Per §4.3 it is the value `g(t_peak)` of
the unit impulse response. -/
noncomputable def get_normalisation_factor (tau_rise tau_decay : ℝ) : ℝ :=
  unit_g tau_rise tau_decay (t_peak tau_rise tau_decay)

/-- Conductance response to a single spike of weight `w` at time 0: the
impulse added to `dg` is `w / normalisation`, so the conductance trace is the
unit response scaled by that factor. -/
noncomputable def g_response (w tau_rise tau_decay t : ℝ) : ℝ :=
  w / get_normalisation_factor tau_rise tau_decay * unit_g tau_rise tau_decay t

lemma t_peak_comm (tr td : ℝ) : t_peak tr td = t_peak td tr := by
  unfold t_peak
  have hlog : Real.log (tr / td) = -Real.log (td / tr) := by
    rw [← Real.log_inv, inv_div]
  rw [hlog, show tr - td = -(td - tr) by ring, div_neg]
  ring

lemma unit_g_comm (tr td t : ℝ) : unit_g tr td t = unit_g td tr t := by
  unfold unit_g
  rw [show tr - td = -(td - tr) by ring, div_neg]
  ring

lemma get_normalisation_factor_comm (tr td : ℝ) :
    get_normalisation_factor tr td = get_normalisation_factor td tr := by
  unfold get_normalisation_factor
  rw [unit_g_comm, t_peak_comm]

section Core

variable {tr td : ℝ}

lemma t_peak_key (h0 : 0 < tr) (hlt : tr < td) :
    t_peak tr td / tr - t_peak tr td / td = Real.log (td / tr) := by
  have htd : 0 < td := h0.trans hlt
  have hsub : (0:ℝ) < td - tr := sub_pos.2 hlt
  unfold t_peak
  field_simp
  ring

lemma exp_t_peak (h0 : 0 < tr) (hlt : tr < td) :
    Real.exp (t_peak tr td / tr - t_peak tr td / td) = td / tr := by
  rw [t_peak_key h0 hlt]
  exact Real.exp_log (div_pos (h0.trans hlt) h0)

lemma exp_neg_t_peak_rise (h0 : 0 < tr) (hlt : tr < td) :
    Real.exp (-t_peak tr td / tr)
      = Real.exp (-t_peak tr td / td) * (tr / td) := by
  have h1 : Real.exp (t_peak tr td / td - t_peak tr td / tr) = tr / td := by
    rw [show t_peak tr td / td - t_peak tr td / tr
          = -(t_peak tr td / tr - t_peak tr td / td) by ring,
      Real.exp_neg, exp_t_peak h0 hlt, inv_div]
  rw [← h1, ← Real.exp_add]
  congr 1
  ring

/-- Young's-inequality step: the unit impulse response difference
`exp(-t/td) - exp(-t/tr)` is maximal at `t_peak`. -/
lemma exp_diff_le (h0 : 0 < tr) (hlt : tr < td) (t : ℝ) :
    Real.exp (-t / td) - Real.exp (-t / tr)
      ≤ Real.exp (-t_peak tr td / td) - Real.exp (-t_peak tr td / tr) := by
  have htd : 0 < td := h0.trans hlt
  have hsub : (0:ℝ) < td - tr := sub_pos.2 hlt
  set tp := t_peak tr td with htp
  -- conjugate exponents p = td/tr, q = td/(td-tr)
  have hpq : Real.IsConjExponent (td / tr) (td / (td - tr)) := by
    constructor
    · exact (one_lt_div h0).2 hlt
    · rw [inv_div, inv_div]
      field_simp
  set u := Real.exp ((tp - t) / td) with hu
  have hupos : (0:ℝ) < u := Real.exp_pos _
  have hy := Real.young_inequality_of_nonneg hupos.le zero_le_one hpq
  rw [mul_one, Real.one_rpow] at hy
  have hup : u ^ (td / tr) = Real.exp ((tp - t) / tr) := by
    rw [Real.rpow_def_of_pos hupos, Real.log_exp]
    congr 1
    field_simp
  rw [hup] at hy
  have h2 : Real.exp ((tp - t) / td)
      ≤ Real.exp ((tp - t) / tr) * (tr / td) + (td - tr) / td := by
    have hr1 : Real.exp ((tp - t) / tr) / (td / tr)
        = Real.exp ((tp - t) / tr) * (tr / td) := by
      rw [div_div_eq_mul_div, mul_div_assoc]
    have hr2 : (1:ℝ) / (td / (td - tr)) = (td - tr) / td := one_div_div _ _
    calc Real.exp ((tp - t) / td) = u := hu
    _ ≤ Real.exp ((tp - t) / tr) / (td / tr) + 1 / (td / (td - tr)) := hy
    _ = Real.exp ((tp - t) / tr) * (tr / td) + (td - tr) / td := by rw [hr1, hr2]
  -- express everything relative to exp(-tp/td)
  have e1 : Real.exp (-tp / tr) = Real.exp (-tp / td) * (tr / td) :=
    exp_neg_t_peak_rise h0 hlt
  have e2 : Real.exp (-t / td) = Real.exp (-tp / td) * u := by
    rw [hu, ← Real.exp_add]
    congr 1
    ring
  have e3 : Real.exp (-t / tr)
      = Real.exp (-tp / td) * (tr / td) * Real.exp ((tp - t) / tr) := by
    rw [← e1, ← Real.exp_add]
    congr 1
    ring
  have hEpos : (0:ℝ) < Real.exp (-tp / td) := Real.exp_pos _
  have hdiv : (td - tr) / td = 1 - tr / td := by field_simp
  have h3 := mul_le_mul_of_nonneg_left h2 hEpos.le
  rw [e2, e3, e1]
  rw [hdiv] at h3
  nlinarith [h3]

lemma diff_tp_pos (h0 : 0 < tr) (hlt : tr < td) :
    0 < Real.exp (-t_peak tr td / td) - Real.exp (-t_peak tr td / tr) := by
  have htd : 0 < td := h0.trans hlt
  rw [exp_neg_t_peak_rise h0 hlt]
  have hE : (0:ℝ) < Real.exp (-t_peak tr td / td) := Real.exp_pos _
  have hfrac : tr / td < 1 := (div_lt_one htd).2 hlt
  nlinarith

lemma norm_pos_of_lt (h0 : 0 < tr) (hlt : tr < td) :
    0 < get_normalisation_factor tr td := by
  have htd : 0 < td := h0.trans hlt
  have hsub : (0:ℝ) < td - tr := sub_pos.2 hlt
  have hA : (0:ℝ) < tr * td / (td - tr) := div_pos (mul_pos h0 htd) hsub
  exact mul_pos hA (diff_tp_pos h0 hlt)

lemma unit_g_le_of_lt (h0 : 0 < tr) (hlt : tr < td) (t : ℝ) :
    unit_g tr td t ≤ get_normalisation_factor tr td := by
  have htd : 0 < td := h0.trans hlt
  have hsub : (0:ℝ) < td - tr := sub_pos.2 hlt
  have hA : (0:ℝ) ≤ tr * td / (td - tr) := (div_pos (mul_pos h0 htd) hsub).le
  unfold get_normalisation_factor unit_g
  exact mul_le_mul_of_nonneg_left (exp_diff_le h0 hlt t) hA

lemma norm_pos (h0 : 0 < tr) (hd : 0 < td) (hne : tr ≠ td) :
    0 < get_normalisation_factor tr td := by
  rcases hne.lt_or_lt with h | h
  · exact norm_pos_of_lt h0 h
  · rw [get_normalisation_factor_comm]
    exact norm_pos_of_lt hd h

lemma unit_g_le (h0 : 0 < tr) (hd : 0 < td) (hne : tr ≠ td) (t : ℝ) :
    unit_g tr td t ≤ get_normalisation_factor tr td := by
  rcases hne.lt_or_lt with h | h
  · exact unit_g_le_of_lt h0 h t
  · rw [get_normalisation_factor_comm, unit_g_comm]
    exact unit_g_le_of_lt hd h t

end Core

lemma unit_dg_zero (tr : ℝ) : unit_dg tr 0 = 1 := by
  unfold unit_dg
  simp

lemma unit_g_zero (tr td : ℝ) : unit_g tr td 0 = 0 := by
  unfold unit_g
  simp

lemma unit_dg_hasDerivAt (tr t : ℝ) :
    HasDerivAt (unit_dg tr) (-(unit_dg tr t) / tr) t := by
  have h1 : HasDerivAt (fun s : ℝ => -s / tr) (-1 / tr) t := by
    simpa using ((hasDerivAt_id t).neg).div_const tr
  have h2 := h1.exp
  unfold unit_dg
  convert h2 using 1
  ring

lemma unit_g_hasDerivAt (tr td t : ℝ) (h0 : 0 < tr) (hd : 0 < td)
    (hne : tr ≠ td) :
    HasDerivAt (unit_g tr td) (unit_dg tr t - unit_g tr td t / td) t := by
  have hd1 : HasDerivAt (fun s : ℝ => -s / td) (-1 / td) t := by
    simpa using ((hasDerivAt_id t).neg).div_const td
  have hd2 : HasDerivAt (fun s : ℝ => -s / tr) (-1 / tr) t := by
    simpa using ((hasDerivAt_id t).neg).div_const tr
  have h3 := ((hd1.exp.sub hd2.exp).const_mul (tr * td / (td - tr)))
  unfold unit_g unit_dg
  convert h3 using 1
  have htr' : tr ≠ 0 := ne_of_gt h0
  have htd' : td ≠ 0 := ne_of_gt hd
  have hsub : td - tr ≠ 0 := sub_ne_zero.2 (Ne.symm hne)
  field_simp
  ring

/-- **C1**: with `tau_rise ≠ tau_decay` (both positive), the beta-kernel
response to a single excitatory spike of weight `w` at time 0, whose impulse
into `dg_exc` is `w` divided by the normalisation factor `g(t_peak)` of the
unit impulse response, satisfies: `unit_dg`/`unit_g` really are the unit
impulse response of the synaptic ODE pair (`dg(0)=1`, `g(0)=0`,
`dg' = -dg/tau_rise`, `g' = dg - g/tau_decay`); the conductance at the
analytic peak time `t_peak = (tau_decay*tau_rise/(tau_decay-tau_rise)) *
ln(tau_decay/tau_rise)` equals exactly `w`; and for `w ≥ 0` the response
never exceeds `w`, so `w` is the peak value, attained at `t_peak`. -/
theorem beta_peak_normalisation (tr td w : ℝ) (h0 : 0 < tr) (hd : 0 < td)
    (hne : tr ≠ td) :
    (unit_dg tr 0 = 1 ∧ unit_g tr td 0 = 0)
    ∧ (∀ t, HasDerivAt (unit_dg tr) (-(unit_dg tr t) / tr) t)
    ∧ (∀ t, HasDerivAt (unit_g tr td) (unit_dg tr t - unit_g tr td t / td) t)
    ∧ g_response w tr td (t_peak tr td) = w
    ∧ (0 ≤ w → ∀ t, g_response w tr td t ≤ w) := by
  have hnorm : 0 < get_normalisation_factor tr td := norm_pos h0 hd hne
  refine ⟨⟨unit_dg_zero tr, unit_g_zero tr td⟩,
    fun t => unit_dg_hasDerivAt tr t,
    fun t => unit_g_hasDerivAt tr td t h0 hd hne, ?_, ?_⟩
  · show w / get_normalisation_factor tr td * get_normalisation_factor tr td = w
    exact div_mul_cancel₀ w hnorm.ne'
  · intro hw t
    unfold g_response
    have hcoef : 0 ≤ w / get_normalisation_factor tr td :=
      div_nonneg hw hnorm.le
    calc w / get_normalisation_factor tr td * unit_g tr td t
        ≤ w / get_normalisation_factor tr td * get_normalisation_factor tr td :=
          mul_le_mul_of_nonneg_left (unit_g_le h0 hd hne t) hcoef
    _ = w := div_mul_cancel₀ w hnorm.ne'

/-- Witness for C1 at the spec's scenario `tau_rise_ex = 0.2 ms`,
`tau_decay_ex = 2.0 ms`, weight `1.0`. -/
theorem beta_peak_normalisation_witness :
    ((0:ℝ) < 0.2 ∧ (0:ℝ) < 2 ∧ (0.2:ℝ) ≠ 2 ∧ (0:ℝ) ≤ 1)
    ∧ (g_response 1 0.2 2 (t_peak 0.2 2) = 1
        ∧ ∀ t, g_response 1 0.2 2 t ≤ 1) := by
  have h0 : (0:ℝ) < 0.2 := by norm_num
  have hd : (0:ℝ) < 2 := by norm_num
  have hne : (0.2:ℝ) ≠ 2 := by norm_num
  have hw : (0:ℝ) ≤ 1 := by norm_num
  have h := beta_peak_normalisation 0.2 2 1 h0 hd hne
  exact ⟨⟨h0, hd, hne, hw⟩, h.2.2.2.1, h.2.2.2.2 hw⟩

/-! ### Data model (§3): parameters, state vector, status dictionary -/

/-- The 13 model parameters of `Parameters_` (field order as in the header). -/
structure Parameters (α : Type) where
  V_th : α
  V_reset : α
  t_ref : α
  g_L : α
  C_m : α
  E_ex : α
  E_in : α
  E_L : α
  tau_rise_ex : α
  tau_decay_ex : α
  tau_rise_in : α
  tau_decay_in : α
  I_e : α
deriving DecidableEq

/-- Symbolic indices of the state vector `State_::y` (`StateVecElems`). -/
inductive StateVecElems where
  | V_M
  | DG_EXC
  | G_EXC
  | DG_INH
  | G_INH
deriving DecidableEq

/-- `State_`: the five continuous state variables plus the integer refractory
countdown `r` (spec invariant: `refractory_steps_remaining ≥ 0`, hence `ℕ`). -/
structure State where
  V_m : ℚ
  dg_exc : ℚ
  g_exc : ℚ
  dg_inh : ℚ
  g_inh : ℚ
  r : ℕ
deriving DecidableEq

/-- A status dictionary: each key optionally supplies a candidate value
(the 13 parameters plus the state variable `V_m`). -/
structure StatusDict where
  V_th : Option ℚ
  V_reset : Option ℚ
  t_ref : Option ℚ
  g_L : Option ℚ
  C_m : Option ℚ
  E_ex : Option ℚ
  E_in : Option ℚ
  E_L : Option ℚ
  tau_rise_ex : Option ℚ
  tau_decay_ex : Option ℚ
  tau_rise_in : Option ℚ
  tau_decay_in : Option ℚ
  I_e : Option ℚ
  V_m : Option ℚ
deriving DecidableEq

/-- Errors signalled by the model (§7): `BadProperty` is the validation
error naming the offending field; `UnknownReceptorType` is the unknown
channel/receptor rejection. -/
inductive NestError where
  | BadProperty (field : String)
  | UnknownReceptorType (receptor : ℕ)
deriving DecidableEq

instance {ε α : Type} [DecidableEq ε] [DecidableEq α] :
    DecidableEq (Except ε α) := fun x y =>
  match x, y with
  | .error a, .error b => decidable_of_iff (a = b) (by simp)
  | .error _, .ok _ => isFalse (by simp)
  | .ok _, .error _ => isFalse (by simp)
  | .ok a, .ok b => decidable_of_iff (a = b) (by simp)

/-- `updateValue`: take the supplied candidate value if present, else keep
the current one. -/
def updateValue (c : Option ℚ) (x : ℚ) : ℚ :=
  c.getD x

/-- Apply every supplied dictionary entry to a parameter record. -/
def Parameters.applyDict (p : Parameters ℚ) (d : StatusDict) : Parameters ℚ where
  V_th := updateValue d.V_th p.V_th
  V_reset := updateValue d.V_reset p.V_reset
  t_ref := updateValue d.t_ref p.t_ref
  g_L := updateValue d.g_L p.g_L
  C_m := updateValue d.C_m p.C_m
  E_ex := updateValue d.E_ex p.E_ex
  E_in := updateValue d.E_in p.E_in
  E_L := updateValue d.E_L p.E_L
  tau_rise_ex := updateValue d.tau_rise_ex p.tau_rise_ex
  tau_decay_ex := updateValue d.tau_decay_ex p.tau_decay_ex
  tau_rise_in := updateValue d.tau_rise_in p.tau_rise_in
  tau_decay_in := updateValue d.tau_decay_in p.tau_decay_in
  I_e := updateValue d.I_e p.I_e

/-- Parameter invariant (§3): every synaptic time constant and the
capacitance are strictly positive. -/
def Parameters.valid (p : Parameters ℚ) : Prop :=
  0 < p.C_m ∧ 0 < p.tau_rise_ex ∧ 0 < p.tau_decay_ex
    ∧ 0 < p.tau_rise_in ∧ 0 < p.tau_decay_in

instance (p : Parameters ℚ) : Decidable p.valid := by
  unfold Parameters.valid
  infer_instance

/-- Modelled from the spec: `Parameters_::set` (declared in the header,
defined out of line).  Per §4.1 it applies all supplied values, validates
that each time constant and the capacitance are strictly positive, signals
a validation error naming the offending field on any violation, and on
success produces the new validated parameter set without committing it. -/
def Parameters.set (d : StatusDict) (p : Parameters ℚ) :
    Except NestError (Parameters ℚ) :=
  if (p.applyDict d).C_m ≤ 0 then .error (.BadProperty "C_m")
  else if (p.applyDict d).tau_rise_ex ≤ 0 then .error (.BadProperty "tau_rise_ex")
  else if (p.applyDict d).tau_decay_ex ≤ 0 then .error (.BadProperty "tau_decay_ex")
  else if (p.applyDict d).tau_rise_in ≤ 0 then .error (.BadProperty "tau_rise_in")
  else if (p.applyDict d).tau_decay_in ≤ 0 then .error (.BadProperty "tau_decay_in")
  else .ok (p.applyDict d)

/-- Modelled from the spec: `State_::set` (declared in the header, defined
out of line).  It derives the temporary state from the candidate dictionary
(the state entry is `V_m`); §4.5's validation against the temporary
parameters imposes no further constraint stated in the spec, so it accepts;
the parameter argument is kept from the source signature. -/
def State.set (d : StatusDict) (_q : Parameters ℚ) (s : State) :
    Except NestError State :=
  .ok { s with V_m := updateValue d.V_m s.V_m }

/-- `iaf_cond_beta::get_status` (header, lines 416-424): store all current
parameter values and the recordable state in a dictionary; no side effects. -/
def get_status (p : Parameters ℚ) (s : State) : StatusDict where
  V_th := some p.V_th
  V_reset := some p.V_reset
  t_ref := some p.t_ref
  g_L := some p.g_L
  C_m := some p.C_m
  E_ex := some p.E_ex
  E_in := some p.E_in
  E_L := some p.E_L
  tau_rise_ex := some p.tau_rise_ex
  tau_decay_ex := some p.tau_decay_ex
  tau_rise_in := some p.tau_rise_in
  tau_decay_in := some p.tau_decay_in
  I_e := some p.I_e
  V_m := some s.V_m

/-- `iaf_cond_beta::set_status` (header, lines 426-443): build a temporary
parameter record via `pset`, a temporary state via `sset` against those
parameters, let the base-node collaborator (`ArchivingNode::set_status`)
check its portion, and only then commit the temporaries.  An exception
(error) at any point unwinds, leaving the live pair untouched.  The three
callees are parameters: the first two are defined out of line in the
repository, the third is the external collaborator. -/
def set_status
    (pset : StatusDict → Parameters ℚ → Except NestError (Parameters ℚ))
    (sset : StatusDict → Parameters ℚ → State → Except NestError State)
    (baseSet : StatusDict → Except NestError Unit)
    (d : StatusDict) (live : Parameters ℚ × State) :
    (Parameters ℚ × State) × Option NestError :=
  match pset d live.1 with
  | .error e => (live, some e)
  | .ok ptmp =>
    match sset d ptmp live.2 with
    | .error e => (live, some e)
    | .ok stmp =>
      match baseSet d with
      | .error e => (live, some e)
      | .ok _ => ((ptmp, stmp), none)

/-- Concrete valid parameter values used as witnesses. -/
def defaultParams : Parameters ℚ :=
  ⟨-55, -60, 2, 16, 250, 0, -85, -70, 1, 2, 1, 2, 0⟩

/-- Concrete resting state used as witnesses (`V = E_L`, conductances zero,
refractory countdown zero). -/
def defaultState : State :=
  ⟨-70, 0, 0, 0, 0, 0⟩

/-- A candidate dictionary with an invalid capacitance. -/
def badDict : StatusDict :=
  ⟨none, none, none, none, some (-1), none, none, none, none, none, none,
    none, none, none⟩

/-- The empty candidate dictionary (no entries supplied). -/
def emptyDict : StatusDict :=
  ⟨none, none, none, none, none, none, none, none, none, none, none, none,
    none, none⟩

/-- **C2**: `set_status` is atomic.  For every candidate dictionary and any
behaviour of the parameter validation, the state validation and the
base-node collaborator: if any of the three signals an error, the live
`(Parameters, State)` pair is returned completely unchanged; if all three
succeed, exactly the two validated temporaries are committed. -/
theorem set_status_transactional
    (pset : StatusDict → Parameters ℚ → Except NestError (Parameters ℚ))
    (sset : StatusDict → Parameters ℚ → State → Except NestError State)
    (baseSet : StatusDict → Except NestError Unit)
    (d : StatusDict) (live : Parameters ℚ × State) :
    (∀ e, (set_status pset sset baseSet d live).2 = some e →
        (set_status pset sset baseSet d live).1 = live)
    ∧ ((set_status pset sset baseSet d live).2 = none →
        ∃ ptmp stmp, pset d live.1 = .ok ptmp
          ∧ sset d ptmp live.2 = .ok stmp
          ∧ baseSet d = .ok ()
          ∧ (set_status pset sset baseSet d live).1 = (ptmp, stmp)) := by
  rcases hp : pset d live.1 with e1 | ptmp
  · constructor
    · intro e _
      simp [set_status, hp]
    · intro hn
      simp [set_status, hp] at hn
  · rcases hs : sset d ptmp live.2 with e2 | stmp
    · constructor
      · intro e _
        simp [set_status, hp, hs]
      · intro hn
        simp [set_status, hp, hs] at hn
    · rcases hb : baseSet d with e3 | u
      · constructor
        · intro e _
          simp [set_status, hp, hs, hb]
        · intro hn
          simp [set_status, hp, hs, hb] at hn
      · cases u
        constructor
        · intro e he
          simp [set_status, hp, hs, hb] at he
        · intro _
          exact ⟨ptmp, stmp, rfl, hs, rfl, by simp [set_status, hp, hs, hb]⟩

/-- Witness for C2: a rejected candidate (`C_m = -1`) leaves the live pair
unchanged, and the empty candidate commits consistent temporaries. -/
theorem set_status_transactional_witness :
    (set_status Parameters.set State.set (fun _ => .ok ()) badDict
        (defaultParams, defaultState)).1 = (defaultParams, defaultState)
    ∧ ∃ ptmp stmp,
        Parameters.set emptyDict defaultParams = .ok ptmp
        ∧ State.set emptyDict ptmp defaultState = .ok stmp
        ∧ (set_status Parameters.set State.set (fun _ => .ok ()) emptyDict
            (defaultParams, defaultState)).1 = (ptmp, stmp) := by
  constructor
  · exact (set_status_transactional Parameters.set State.set (fun _ => .ok ())
      badDict (defaultParams, defaultState)).1 (.BadProperty "C_m") (by decide)
  · obtain ⟨pt, st, e1, e2, _, e4⟩ :=
      (set_status_transactional Parameters.set State.set (fun _ => .ok ())
        emptyDict (defaultParams, defaultState)).2 (by decide)
    exact ⟨pt, st, e1, e2, e4⟩

/-- The offending-field relation: field name `f` names a value of the merged
candidate that violates its strict-positivity constraint. -/
def offendingField (f : String) (q : Parameters ℚ) : Prop :=
  (f = "C_m" ∧ q.C_m ≤ 0)
  ∨ (f = "tau_rise_ex" ∧ q.tau_rise_ex ≤ 0)
  ∨ (f = "tau_decay_ex" ∧ q.tau_decay_ex ≤ 0)
  ∨ (f = "tau_rise_in" ∧ q.tau_rise_in ≤ 0)
  ∨ (f = "tau_decay_in" ∧ q.tau_decay_in ≤ 0)

/-- **C6**: `Parameters_::set` validates every supplied value: it succeeds
with the merged candidate exactly when every time constant and the
capacitance of the merged candidate are strictly positive; any signalled
validation error names an offending field; and whenever it signals an error
the enclosing `set_status` leaves the live parameter store (and state)
unmodified, reporting that error. -/
theorem parameters_set_validates (d : StatusDict) (p : Parameters ℚ) :
    (Parameters.set d p = .ok (p.applyDict d) ↔ (p.applyDict d).valid)
    ∧ (∀ f, Parameters.set d p = .error (.BadProperty f) →
        offendingField f (p.applyDict d))
    ∧ (∀ e s baseSet, Parameters.set d p = .error e →
        set_status Parameters.set State.set baseSet d (p, s)
          = ((p, s), some e)) := by
  refine ⟨?_, ?_, ?_⟩
  · unfold Parameters.set Parameters.valid
    split_ifs with h1 h2 h3 h4 h5
    · exact iff_of_false (by simp) (fun hv => absurd hv.1 (not_lt.2 h1))
    · exact iff_of_false (by simp) (fun hv => absurd hv.2.1 (not_lt.2 h2))
    · exact iff_of_false (by simp) (fun hv => absurd hv.2.2.1 (not_lt.2 h3))
    · exact iff_of_false (by simp) (fun hv => absurd hv.2.2.2.1 (not_lt.2 h4))
    · exact iff_of_false (by simp) (fun hv => absurd hv.2.2.2.2 (not_lt.2 h5))
    · exact iff_of_true rfl
        ⟨not_le.1 h1, not_le.1 h2, not_le.1 h3, not_le.1 h4, not_le.1 h5⟩
  · intro f hf
    unfold Parameters.set at hf
    unfold offendingField
    split_ifs at hf with h1 h2 h3 h4 h5 <;>
      simp_all
  · intro e s baseSet he
    simp [set_status, he]

/-- Witness for C6: the candidate `C_m = -1` is rejected naming `C_m` and
leaves the live pair unchanged; the empty candidate over valid parameters is
accepted. -/
theorem parameters_set_validates_witness :
    offendingField "C_m" (defaultParams.applyDict badDict)
    ∧ set_status Parameters.set State.set (fun _ => .ok ()) badDict
        (defaultParams, defaultState)
        = ((defaultParams, defaultState), some (.BadProperty "C_m"))
    ∧ Parameters.set emptyDict defaultParams
        = .ok (defaultParams.applyDict emptyDict) := by
  refine ⟨?_, ?_, ?_⟩
  · exact (parameters_set_validates badDict defaultParams).2.1 "C_m" (by decide)
  · exact (parameters_set_validates badDict defaultParams).2.2
      (.BadProperty "C_m") defaultState (fun _ => .ok ()) (by decide)
  · exact (parameters_set_validates emptyDict defaultParams).1.2 (by decide)

lemma applyDict_get_status (p : Parameters ℚ) (s : State) :
    p.applyDict (get_status p s) = p :=
  rfl

/-- **C7**: `get_status` immediately followed by `set_status` with the
unmodified snapshot commits successfully and leaves every parameter and
state field identical (round-trip idempotence); `get_status` itself is a
pure function of the live pair. -/
theorem get_set_roundtrip (p : Parameters ℚ) (s : State)
    (baseSet : StatusDict → Except NestError Unit)
    (hv : p.valid) (hb : baseSet (get_status p s) = .ok ()) :
    set_status Parameters.set State.set baseSet (get_status p s) (p, s)
      = ((p, s), none) := by
  have h1 : Parameters.set (get_status p s) p = .ok p := by
    unfold Parameters.set
    rw [applyDict_get_status]
    rw [if_neg (not_le.2 hv.1), if_neg (not_le.2 hv.2.1),
      if_neg (not_le.2 hv.2.2.1), if_neg (not_le.2 hv.2.2.2.1),
      if_neg (not_le.2 hv.2.2.2.2)]
  have h2 : State.set (get_status p s) p s = .ok s := rfl
  simp [set_status, h1, h2, hb]

/-- Witness for C7 at the concrete default parameter/state values. -/
theorem get_set_roundtrip_witness :
    set_status Parameters.set State.set (fun _ => .ok ())
        (get_status defaultParams defaultState) (defaultParams, defaultState)
      = ((defaultParams, defaultState), none) :=
  get_set_roundtrip defaultParams defaultState (fun _ => .ok ())
    (by decide) rfl

/-! ### ODE right-hand side (§4.2), inbound-event handling, recordables -/

/-- Modelled from the spec: `iaf_cond_beta_dynamics` (declared with
C-linkage in the header, defined out of line).  A pure function of the
parameters, the pending injected current and the current state vector,
computing the five instantaneous derivatives of §4.2; it captures no other
state. -/
noncomputable def iaf_cond_beta_dynamics (p : Parameters ℝ) (I_stim : ℝ)
    (y : StateVecElems → ℝ) : StateVecElems → ℝ
  | .V_M =>
      (-p.g_L * (y .V_M - p.E_L) - y .G_EXC * (y .V_M - p.E_ex)
        - y .G_INH * (y .V_M - p.E_in) + p.I_e + I_stim) / p.C_m
  | .DG_EXC => -y .DG_EXC / p.tau_rise_ex
  | .G_EXC => y .DG_EXC - y .G_EXC / p.tau_decay_ex
  | .DG_INH => -y .DG_INH / p.tau_rise_in
  | .G_INH => y .DG_INH - y .G_INH / p.tau_decay_in

/-- **C4**: the ODE right-hand side is a pure function of
`(state, params, I_injected)` — it is a mathematical function with no other
inputs — and for every state it computes exactly the five derivatives of
§4.2: `dV/dt = (-g_L(V-E_L) - g_exc(V-E_ex) - g_inh(V-E_in) + I_e +
I_injected)/C_m`, `d(dg_x)/dt = -dg_x/tau_rise_x` and
`d(g_x)/dt = dg_x - g_x/tau_decay_x` for both synapse types. -/
theorem dynamics_formulas (p : Parameters ℝ) (I_stim : ℝ)
    (y : StateVecElems → ℝ) :
    iaf_cond_beta_dynamics p I_stim y .V_M
        = (-p.g_L * (y .V_M - p.E_L) - y .G_EXC * (y .V_M - p.E_ex)
            - y .G_INH * (y .V_M - p.E_in) + p.I_e + I_stim) / p.C_m
    ∧ iaf_cond_beta_dynamics p I_stim y .DG_EXC = -y .DG_EXC / p.tau_rise_ex
    ∧ iaf_cond_beta_dynamics p I_stim y .G_EXC
        = y .DG_EXC - y .G_EXC / p.tau_decay_ex
    ∧ iaf_cond_beta_dynamics p I_stim y .DG_INH = -y .DG_INH / p.tau_rise_in
    ∧ iaf_cond_beta_dynamics p I_stim y .G_INH
        = y .DG_INH - y .G_INH / p.tau_decay_in :=
  ⟨rfl, rfl, rfl, rfl, rfl⟩

/-- The per-step spike accumulation slots of `Buffers_` (`spike_exc_`,
`spike_inh_`) for one delivery step. -/
structure SpikeBuffers where
  spike_exc : ℚ
  spike_inh : ℚ
deriving DecidableEq

/-- Modelled from the spec: `iaf_cond_beta::handle(SpikeEvent&)` (defined
out of line).  The sign of the synaptic weight — not a receptor tag —
selects the channel: positive weights accumulate into the excitatory slot,
negative weights into the inhibitory slot (as a positive conductance
magnitude), each scaled by the event multiplicity. -/
def handle_spike (weight : ℚ) (multiplicity : ℕ) (b : SpikeBuffers) :
    SpikeBuffers :=
  if 0 < weight then
    { b with spike_exc := b.spike_exc + weight * multiplicity }
  else
    { b with spike_inh := b.spike_inh - weight * multiplicity }

/-- **C8**: routing of an inbound spike is decided by the weight's sign
alone: a positive-weight spike accumulates its impulse into the excitatory
channel leaving the inhibitory channel untouched, and a negative-weight
spike accumulates its magnitude into the inhibitory channel leaving the
excitatory channel untouched. -/
theorem spike_routing_by_weight_sign (w : ℚ) (m : ℕ) (b : SpikeBuffers) :
    (0 < w →
      (handle_spike w m b).spike_exc = b.spike_exc + w * m
      ∧ (handle_spike w m b).spike_inh = b.spike_inh)
    ∧ (w < 0 →
      (handle_spike w m b).spike_inh = b.spike_inh + (-w) * m
      ∧ (handle_spike w m b).spike_exc = b.spike_exc) := by
  constructor <;> intro h
  · simp [handle_spike, h]
  · rw [handle_spike, if_neg (not_lt.2 h.le)]
    exact ⟨by ring_nf, rfl⟩

/-- Witness for C8: a weight `2` spike lands in the excitatory slot, a
weight `-3` spike in the inhibitory slot. -/
theorem spike_routing_by_weight_sign_witness :
    ((handle_spike 2 1 ⟨0, 0⟩).spike_exc = (0:ℚ) + 2 * 1
      ∧ (handle_spike 2 1 ⟨0, 0⟩).spike_inh = 0)
    ∧ ((handle_spike (-3) 2 ⟨0, 0⟩).spike_inh = (0:ℚ) + (-(-3)) * 2
      ∧ (handle_spike (-3) 2 ⟨0, 0⟩).spike_exc = 0) :=
  ⟨(spike_routing_by_weight_sign 2 1 ⟨0, 0⟩).1 (by decide),
    (spike_routing_by_weight_sign (-3) 2 ⟨0, 0⟩).2 (by decide)⟩

/-- `iaf_cond_beta::handles_test_event(SpikeEvent&, size_t)` (header,
lines 386-394): any receptor index other than 0 is rejected with
`UnknownReceptorType` at connection-setup time; index 0 is accepted. -/
def handles_test_event_spike (receptor_type : ℕ) : Except NestError ℕ :=
  if receptor_type ≠ 0 then .error (.UnknownReceptorType receptor_type)
  else .ok 0

/-- `iaf_cond_beta::handles_test_event(CurrentEvent&, size_t)` (header,
lines 396-404). -/
def handles_test_event_current (receptor_type : ℕ) : Except NestError ℕ :=
  if receptor_type ≠ 0 then .error (.UnknownReceptorType receptor_type)
  else .ok 0

/-- `iaf_cond_beta::handles_test_event(DataLoggingRequest&, size_t)`
(header, lines 406-414): on receptor 0 the result is whatever the data
logger's connection returns (an external collaborator, a parameter here). -/
def handles_test_event_logging (receptor_type : ℕ) (connect_result : ℕ) :
    Except NestError ℕ :=
  if receptor_type ≠ 0 then .error (.UnknownReceptorType receptor_type)
  else .ok connect_result

/-- **C9**: for every inbound event kind (spike, current, data-logging
request), a receptor index other than the single supported index 0 is
rejected with `UnknownReceptorType` by the connection test — i.e. at
connection-setup time, before any simulation step — while receptor index 0
is accepted. -/
theorem handles_test_event_receptor_check (rt c : ℕ) :
    (rt ≠ 0 →
      handles_test_event_spike rt = .error (.UnknownReceptorType rt)
      ∧ handles_test_event_current rt = .error (.UnknownReceptorType rt)
      ∧ handles_test_event_logging rt c = .error (.UnknownReceptorType rt))
    ∧ (rt = 0 →
      handles_test_event_spike rt = .ok 0
      ∧ handles_test_event_current rt = .ok 0
      ∧ handles_test_event_logging rt c = .ok c) := by
  constructor <;> intro h <;>
    simp [handles_test_event_spike, handles_test_event_current,
      handles_test_event_logging, h]

/-- Witness for C9: receptor index 1 is rejected by all three connection
tests, receptor index 0 is accepted by all three. -/
theorem handles_test_event_receptor_check_witness :
    (handles_test_event_spike 1 = .error (.UnknownReceptorType 1)
      ∧ handles_test_event_current 1 = .error (.UnknownReceptorType 1)
      ∧ handles_test_event_logging 1 7 = .error (.UnknownReceptorType 1))
    ∧ (handles_test_event_spike 0 = .ok 0
      ∧ handles_test_event_current 0 = .ok 0
      ∧ handles_test_event_logging 0 7 = .ok 7) :=
  ⟨(handles_test_event_receptor_check 1 7).1 (by decide),
    (handles_test_event_receptor_check 0 7).2 rfl⟩

/-- `iaf_cond_beta::get_y_elem_` (header, lines 349-354): read one state
vector element; a pure read. -/
def get_y_elem_ (elem : StateVecElems) (s : State) : ℚ :=
  match elem with
  | .V_M => s.V_m
  | .DG_EXC => s.dg_exc
  | .G_EXC => s.g_exc
  | .DG_INH => s.dg_inh
  | .G_INH => s.g_inh

/-- `iaf_cond_beta::get_r_` (header, lines 356-361): remaining refractory
time in ms, `resolution_ms * r`; a pure read. -/
def get_r_ (resolution_ms : ℚ) (s : State) : ℚ :=
  resolution_ms * s.r

/-- **C10**: for every state, the recordable refractory-time-remaining
equals the simulation resolution (in ms) times the integer refractory
countdown `r`, and (for a positive resolution) it is zero exactly when the
neuron is not refractory.  Both recordable accessors are pure functions of
the state, so reading them cannot modify the neuron. -/
theorem get_r_semantics (res : ℚ) (s : State) (h : 0 < res) :
    get_r_ res s = res * s.r
    ∧ (get_r_ res s = 0 ↔ s.r = 0)
    ∧ get_y_elem_ .V_M s = s.V_m := by
  refine ⟨rfl, ?_, rfl⟩
  unfold get_r_
  rw [mul_eq_zero]
  constructor
  · rintro (h0 | h0)
    · exact absurd h0 h.ne'
    · exact_mod_cast h0
  · intro h0
    right
    exact_mod_cast h0

/-- Witness for C10 at resolution `1 ms` on a state with `r = 3` steps
remaining. -/
theorem get_r_semantics_witness :
    get_r_ 1 ⟨-70, 0, 0, 0, 0, 3⟩ = 1 * (3:ℕ)
    ∧ (get_r_ 1 ⟨-70, 0, 0, 0, 0, 3⟩ = 0 ↔ (3:ℕ) = 0)
    ∧ get_y_elem_ .V_M ⟨-70, 0, 0, 0, 0, 3⟩ = -70 :=
  get_r_semantics 1 ⟨-70, 0, 0, 0, 0, 3⟩ (by decide)

/-! ### Integration engine and refractory state machine (§4.4)

The adaptive ODE stepper is an external black box (§6); it is represented
by a pair of functions.  Because the conductance ODEs are independent of
the voltage, one macro-step of the stepper decomposes into a conductance
advance and a voltage advance that reads the step's starting conductances
and the pending injected current. -/

/-- `Variables_`: the cached per-spike impulses and the refractory duration
in integration steps. -/
structure Variables where
  PSConInit_E : ℚ
  PSConInit_I : ℚ
  RefractoryCounts : ℕ
deriving DecidableEq

/-- One step's drained input-accumulator contents: summed excitatory
weight, summed inhibitory weight, summed injected current. -/
structure Inputs where
  spikes_exc : ℚ
  spikes_inh : ℚ
  current : ℚ
deriving DecidableEq

/-- The supplied adaptive integrator, advancing the system by one fixed
macro-step: `condStep` advances the four conductance variables, `voltStep`
advances the voltage given the starting conductances and the injected
current. -/
structure Stepper where
  condStep : ℚ × ℚ × ℚ × ℚ → ℚ × ℚ × ℚ × ℚ
  voltStep : ℚ → ℚ × ℚ × ℚ × ℚ → ℚ → ℚ

/-- The four conductance state variables of a state. -/
def State.cond (s : State) : ℚ × ℚ × ℚ × ℚ :=
  (s.dg_exc, s.g_exc, s.dg_inh, s.g_inh)

/-- Replace the four conductance state variables. -/
def State.withCond (s : State) (c : ℚ × ℚ × ℚ × ℚ) : State :=
  { s with
    dg_exc := c.1
    g_exc := c.2.1
    dg_inh := c.2.2.1
    g_inh := c.2.2.2 }

/-- Modelled from the spec: §4.4 step 1 — drain the input accumulator,
adding the accumulated impulses (scaled by the normalisation impulses of
`Variables_`) to `dg_exc`/`dg_inh`. -/
def drain (v : Variables) (inp : Inputs) (s : State) : State :=
  { s with
    dg_exc := s.dg_exc + inp.spikes_exc * v.PSConInit_E
    dg_inh := s.dg_inh + inp.spikes_inh * v.PSConInit_I }

/-- The stepper's free voltage dynamics for one step from a (drained)
state. -/
def freeDynamicsV (st : Stepper) (inp : Inputs) (s : State) : ℚ :=
  st.voltStep s.V_m s.cond inp.current

/-- Modelled from the spec: §4.4 steps 2-3 — if refractory, clamp
`V = V_reset`, still advance the four conductance variables and decrement
the countdown; otherwise advance the full system with the stepper. -/
def integrate (st : Stepper) (p : Parameters ℚ) (inp : Inputs) (s : State) :
    State :=
  if 0 < s.r then
    { s.withCond (st.condStep s.cond) with V_m := p.V_reset, r := s.r - 1 }
  else
    { s.withCond (st.condStep s.cond) with V_m := freeDynamicsV st inp s }

/-- Modelled from the spec: one full discrete update step (§4.4 steps 1-4).
Returns the new state and the number of outbound spike events: after
integration a single threshold test `V ≥ V_th` decides spiking; on a spike
`V := V_reset` and the countdown restarts at `RefractoryCounts`. -/
def update_step (st : Stepper) (p : Parameters ℚ) (v : Variables)
    (inp : Inputs) (s : State) : State × ℕ :=
  if p.V_th ≤ (integrate st p inp (drain v inp s)).V_m then
    ({ integrate st p inp (drain v inp s) with
        V_m := p.V_reset
        r := v.RefractoryCounts }, 1)
  else
    (integrate st p inp (drain v inp s), 0)

/-- Iterate `update_step` over an input stream, keeping only the state. -/
def iterSteps (st : Stepper) (p : Parameters ℚ) (v : Variables)
    (inps : ℕ → Inputs) (s : State) : ℕ → State
  | 0 => s
  | n + 1 => (update_step st p v (inps n) (iterSteps st p v inps s n)).1

/-- **C5**: each discrete step emits at most one outbound spike event; a
spike is emitted exactly when the post-integration voltage reaches
`V_th` — a single threshold test per step, whatever the stepper did
internally within the step — and on a spike the voltage is reset to
`V_reset` and the refractory countdown set to `RefractoryCounts`. -/
theorem at_most_one_spike_per_step (st : Stepper) (p : Parameters ℚ)
    (v : Variables) (inp : Inputs) (s : State) :
    (update_step st p v inp s).2 ≤ 1
    ∧ ((update_step st p v inp s).2 = 1
        ↔ p.V_th ≤ (integrate st p inp (drain v inp s)).V_m)
    ∧ ((update_step st p v inp s).2 = 1 →
        (update_step st p v inp s).1.V_m = p.V_reset
        ∧ (update_step st p v inp s).1.r = v.RefractoryCounts) := by
  unfold update_step
  by_cases h : p.V_th ≤ (integrate st p inp (drain v inp s)).V_m <;>
    simp [h]

lemma drain_r (v : Variables) (inp : Inputs) (s : State) :
    (drain v inp s).r = s.r :=
  rfl

/-- A stepper used by concrete witnesses: conductances unchanged, voltage
driven up by 20 mV per step. -/
def rampStepper : Stepper :=
  ⟨fun c => c, fun V _ _ => V + 20⟩

/-- Variables used by concrete witnesses: unit impulses, 2 refractory
steps. -/
def witnessVars : Variables :=
  ⟨1, 1, 2⟩

/-- The silent input stream. -/
def noInputs : Inputs :=
  ⟨0, 0, 0⟩

/-- Witness for C5: from `V = -60` the ramp stepper reaches `-40 ≥ V_th =
-55`, so exactly one spike is emitted and the reset applies. -/
theorem at_most_one_spike_per_step_witness :
    (update_step rampStepper defaultParams witnessVars noInputs
        defaultState).2 ≤ 1
    ∧ ((update_step rampStepper defaultParams witnessVars noInputs
        defaultState).1.V_m = defaultParams.V_reset
      ∧ (update_step rampStepper defaultParams witnessVars noInputs
          defaultState).1.r = witnessVars.RefractoryCounts) :=
  ⟨(at_most_one_spike_per_step rampStepper defaultParams witnessVars
      noInputs defaultState).1,
    (at_most_one_spike_per_step rampStepper defaultParams witnessVars
      noInputs defaultState).2.2 (by
        norm_num [update_step, integrate, drain, freeDynamicsV,
          State.withCond, State.cond, rampStepper, defaultParams,
          witnessVars, noInputs, defaultState])⟩

lemma update_step_refractory (st : Stepper) (p : Parameters ℚ)
    (v : Variables) (inp : Inputs) (s : State) (h : 0 < s.r)
    (hV : p.V_reset < p.V_th) :
    (update_step st p v inp s).1.V_m = p.V_reset
    ∧ (update_step st p v inp s).1.r = s.r - 1
    ∧ (update_step st p v inp s).1.cond = st.condStep (drain v inp s).cond
    ∧ (update_step st p v inp s).2 = 0 := by
  have hnot : ¬ p.V_th ≤ p.V_reset := not_le.2 hV
  have hd : 0 < (drain v inp s).r := by rwa [drain_r]
  unfold update_step integrate
  rw [if_pos hd, if_neg hnot]
  exact ⟨rfl, rfl, rfl, rfl⟩

lemma update_step_active (st : Stepper) (p : Parameters ℚ) (v : Variables)
    (inp : Inputs) (s : State) (h : s.r = 0) :
    (update_step st p v inp s).1.V_m
      = (if p.V_th ≤ freeDynamicsV st inp (drain v inp s) then p.V_reset
        else freeDynamicsV st inp (drain v inp s)) := by
  have hd : ¬ 0 < (drain v inp s).r := by
    rw [drain_r, h]
    exact lt_irrefl 0
  unfold update_step integrate
  rw [if_neg hd]
  by_cases hth : p.V_th ≤ freeDynamicsV st inp (drain v inp s)
  · rw [if_pos hth, if_pos hth]
  · rw [if_neg hth, if_neg hth]

lemma iterSteps_succ (st : Stepper) (p : Parameters ℚ) (v : Variables)
    (inps : ℕ → Inputs) (s : State) (n : ℕ) :
    iterSteps st p v inps s (n + 1)
      = (update_step st p v (inps n) (iterSteps st p v inps s n)).1 :=
  rfl

lemma refractory_countdown (st : Stepper) (p : Parameters ℚ)
    (v : Variables) (inps : ℕ → Inputs) (s : State)
    (hV : p.V_reset < p.V_th) (hr : s.r = v.RefractoryCounts) :
    ∀ j, j ≤ v.RefractoryCounts →
      (iterSteps st p v inps s j).r = v.RefractoryCounts - j
      ∧ (0 < j →
          (iterSteps st p v inps s j).V_m = p.V_reset
          ∧ (iterSteps st p v inps s j).cond
              = st.condStep
                (drain v (inps (j - 1)) (iterSteps st p v inps s (j - 1))).cond) := by
  intro j
  induction j with
  | zero =>
    intro _
    exact ⟨by simpa [iterSteps] using hr, fun h0 => absurd h0 (by simp)⟩
  | succ n ih =>
    intro hn
    obtain ⟨ihr, _⟩ := ih (Nat.le_of_succ_le hn)
    have hpos : 0 < (iterSteps st p v inps s n).r := by
      rw [ihr]
      exact Nat.sub_pos_of_lt hn
    have hstep := update_step_refractory st p v (inps n)
      (iterSteps st p v inps s n) hpos hV
    refine ⟨?_, fun _ => ⟨?_, ?_⟩⟩
    · rw [iterSteps_succ, hstep.2.1, ihr]
      omega
    · rw [iterSteps_succ]
      exact hstep.1
    · rw [iterSteps_succ]
      simpa using hstep.2.2.1

/-- **C3**: from a just-spiked state (countdown at `RefractoryCounts`,
with `V_reset < V_th`), for each of the next `RefractoryCounts` steps the
voltage is clamped to `V_reset` while the four conductance variables are
still advanced by the stepper from the drained inputs, and the countdown
decreases by one per step; after exactly `RefractoryCounts` steps the
countdown reaches 0 (the neuron is ACTIVE again) and on the following step
the voltage resumes free dynamics: it is the stepper's `voltStep` result
(subject only to the ordinary threshold test of §4.4 step 4). -/
theorem refractory_clamp (st : Stepper) (p : Parameters ℚ) (v : Variables)
    (inps : ℕ → Inputs) (s : State)
    (hV : p.V_reset < p.V_th) (hr : s.r = v.RefractoryCounts) :
    (∀ j, j < v.RefractoryCounts →
      (iterSteps st p v inps s (j + 1)).V_m = p.V_reset
      ∧ (iterSteps st p v inps s (j + 1)).r = v.RefractoryCounts - (j + 1)
      ∧ (iterSteps st p v inps s (j + 1)).cond
          = st.condStep (drain v (inps j) (iterSteps st p v inps s j)).cond)
    ∧ (iterSteps st p v inps s v.RefractoryCounts).r = 0
    ∧ (iterSteps st p v inps s (v.RefractoryCounts + 1)).V_m
        = (if p.V_th ≤ freeDynamicsV st (inps v.RefractoryCounts)
              (drain v (inps v.RefractoryCounts)
                (iterSteps st p v inps s v.RefractoryCounts))
          then p.V_reset
          else freeDynamicsV st (inps v.RefractoryCounts)
            (drain v (inps v.RefractoryCounts)
              (iterSteps st p v inps s v.RefractoryCounts))) := by
  have key := refractory_countdown st p v inps s hV hr
  have hzero : (iterSteps st p v inps s v.RefractoryCounts).r = 0 := by
    rw [(key v.RefractoryCounts le_rfl).1, Nat.sub_self]
  refine ⟨?_, hzero, ?_⟩
  · intro j hj
    obtain ⟨h1, h2⟩ := key (j + 1) hj
    obtain ⟨h3, h4⟩ := h2 (Nat.succ_pos j)
    exact ⟨h3, h1, by simpa using h4⟩
  · rw [iterSteps_succ]
    exact update_step_active st p v (inps v.RefractoryCounts)
      (iterSteps st p v inps s v.RefractoryCounts) hzero

/-- Witness for C3: ramp stepper, default parameters, 2 refractory steps,
silent inputs, starting from the just-spiked state. -/
theorem refractory_clamp_witness :
    (∀ j, j < witnessVars.RefractoryCounts →
      (iterSteps rampStepper defaultParams witnessVars (fun _ => noInputs)
          ⟨-60, 0, 0, 0, 0, 2⟩ (j + 1)).V_m = defaultParams.V_reset
      ∧ (iterSteps rampStepper defaultParams witnessVars (fun _ => noInputs)
          ⟨-60, 0, 0, 0, 0, 2⟩ (j + 1)).r
            = witnessVars.RefractoryCounts - (j + 1)
      ∧ (iterSteps rampStepper defaultParams witnessVars (fun _ => noInputs)
          ⟨-60, 0, 0, 0, 0, 2⟩ (j + 1)).cond
          = rampStepper.condStep
              (drain witnessVars noInputs
                (iterSteps rampStepper defaultParams witnessVars
                  (fun _ => noInputs) ⟨-60, 0, 0, 0, 0, 2⟩ j)).cond)
    ∧ (iterSteps rampStepper defaultParams witnessVars (fun _ => noInputs)
        ⟨-60, 0, 0, 0, 0, 2⟩ witnessVars.RefractoryCounts).r = 0
    ∧ (iterSteps rampStepper defaultParams witnessVars (fun _ => noInputs)
        ⟨-60, 0, 0, 0, 0, 2⟩ (witnessVars.RefractoryCounts + 1)).V_m
        = (if defaultParams.V_th ≤ freeDynamicsV rampStepper noInputs
              (drain witnessVars noInputs
                (iterSteps rampStepper defaultParams witnessVars
                  (fun _ => noInputs) ⟨-60, 0, 0, 0, 0, 2⟩
                  witnessVars.RefractoryCounts))
          then defaultParams.V_reset
          else freeDynamicsV rampStepper noInputs
            (drain witnessVars noInputs
              (iterSteps rampStepper defaultParams witnessVars
                (fun _ => noInputs) ⟨-60, 0, 0, 0, 0, 2⟩
                witnessVars.RefractoryCounts))) :=
  refractory_clamp rampStepper defaultParams witnessVars (fun _ => noInputs)
    ⟨-60, 0, 0, 0, 0, 2⟩ (by decide) (by decide)

end IafCondBeta
